import Mathlib

/-!
# Verification of the MCP FileBridge request dispatch and tool-execution engine

Shallow embedding of the core of the `simple-mcp-fileserver` repository
(the `MCPEnterpriseServer` dispatcher, `ToolRegistry`, `SecurityService`,
`PluginManager` and `ResourceRegistry`), translated from the TypeScript
sources:

* `src/src/tools/file-tools.ts` — `MCPEnterpriseServer` (handleMcpRequest,
  processRequest, handleToolCall, handleToolsList, handleResourcesList,
  handleResourceRead, handlePing, validateJsonRpcRequest, createErrorResponse,
  generateCacheKey, isCacheableMethod, hashObject) and `ToolRegistry`
  (registerTool, canExecuteTool, getAvailableTools, executeTool,
  executeWithTimeout);
* `src/unnamed/part_002` — `SecurityService.canExecuteTool`;
* `src/unnamed/part_000` — `PluginManager.handleMethod`;
* `src/src/index.ts` — JSON-RPC / MCP error code enums.

Asynchrony is embedded by making each attempt of a tool handler an explicit
function of the attempt index (the settled outcome of racing the handler's
promise against the timeout timer), and all mutation of server state is
explicit state passing.
-/

namespace FileBridge

/-! ## JSON values

JavaScript values reachable from a decoded JSON-RPC request body.  A field
that is absent (JS `undefined`) is modelled as `Option.none` at its use
sites; `Json.null` is JSON `null`. -/

inductive Json where
  | null
  | bool (b : Bool)
  | num (n : Int)
  | str (s : String)
  | arr (elems : List Json)
  | obj (fields : List (String × Json))

/-- Property access `j[k]` on a JS value: a field lookup on objects,
`undefined` (`none`) on every other value. -/
def jsonGetField (j : Json) (k : String) : Option Json :=
  match j with
  | .obj fields =>
      let rec find : List (String × Json) → Option Json
        | [] => none
        | (k', v) :: rest => if k' = k then some v else find rest
      find fields
  | _ => none

/-- `Json.isObj` — what `Joi.object()` accepts: a plain object (not an
array, string, number, boolean or null). -/
def Json.isObj : Json → Bool
  | .obj _ => true
  | _ => false

/-! ## `hashObject` (file-tools.ts lines 1510-1519)

```ts
private hashObject(obj: unknown): string {
  const str = JSON.stringify(obj, Object.keys(obj || {}).sort());
  let hash = 0;
  for (let i = 0; i < str.length; i++) {
    const char = str.charCodeAt(i);
    hash = ((hash << 5) - hash) + char;
    hash = hash & hash; // Convert to 32-bit integer
  }
  return Math.abs(hash).toString(36);
}
```

`JSON.stringify(v, K)` with a replacer *array* `K` keeps, in every nested
object, only the properties whose key occurs in `K`.  When `obj` is
`undefined`, `obj || {}` is `{}`, so `K = []` and
`JSON.stringify(undefined, [])` evaluates to `undefined`; the subsequent
`str.length` then throws a `TypeError`.  The embedding keeps each object's
own insertion order when serialising (the ECMAScript property list `K`
additionally dictates emission order; since `K` is sorted and every claim
uses the key only as an opaque deterministic value, this difference is
immaterial to the theorems below). -/

/-- A thrown JavaScript exception. -/
inductive JsError where
  | typeError (msg : String)
  | error (msg : String)

/-- `Object.keys(v || {})`: field names of an object, index strings of an
array or string, `[]` for every primitive (and for `null`/`undefined`,
which `|| {}` replaces by `{}`). -/
def jsKeys : Json → List String
  | .obj fields => fields.map (fun f => f.1)
  | .arr elems => (List.range elems.length).map (fun i => toString i)
  | .str s => (List.range s.length).map (fun i => toString i)
  | _ => []

/-- Escape one character for a JSON string literal. -/
def escapeChar (c : Char) : String :=
  if c = '"' then "\\\""
  else if c = '\\' then "\\\\"
  else if c.toNat < 32 then "\\u00" ++ toString c.toNat
  else String.singleton c

/-- Serialise a string as a JSON string literal. -/
def escapeString (s : String) : String :=
  "\"" ++ String.join (s.toList.map escapeChar) ++ "\""

mutual

/-- `JSON.stringify(v, K)` for a replacer array `K`: nested object
properties whose key is not in `K` are dropped; array elements are always
kept. -/
def stringifyVal (K : List String) : Json → String
  | .null => "null"
  | .bool b => cond b "true" "false"
  | .num n => toString n
  | .str s => escapeString s
  | .arr elems => "[" ++ String.intercalate "," (stringifyArr K elems) ++ "]"
  | .obj fields => "\x7b" ++ String.intercalate "," (stringifyFields K fields) ++ "\x7d"

def stringifyArr (K : List String) : List Json → List String
  | [] => []
  | x :: xs => stringifyVal K x :: stringifyArr K xs

def stringifyFields (K : List String) : List (String × Json) → List String
  | [] => []
  | (k, v) :: rest =>
      if K.contains k then
        (escapeString k ++ ":" ++ stringifyVal K v) :: stringifyFields K rest
      else
        stringifyFields K rest

end

/-- JS `ToInt32`: reduce an integer into `[-2^31, 2^31)`. -/
def toInt32 (n : Int) : Int := ((n + 2 ^ 31) % 2 ^ 32) - 2 ^ 31

/-- One iteration of the hash loop:
`hash = ((hash << 5) - hash) + char; hash = hash & hash`.
`hash << 5` truncates to 32 bits; the sum is exact in a JS number; the
final `& hash` truncates again. -/
def hashStep (h : Int) (c : Nat) : Int := toInt32 (toInt32 (h * 32) - h + c)

/-- The character-code hash loop over a string (char codes are UTF-16 code
units; all inputs used in this development are ASCII, where they coincide
with Unicode code points). -/
def hashString (s : String) : Int :=
  s.toList.foldl (fun h c => hashStep h c.toNat) 0

/-- Digit for `Number.prototype.toString(36)`. -/
def digit36 (d : Nat) : Char :=
  if d < 10 then Char.ofNat (48 + d) else Char.ofNat (87 + d)

/-- `n.toString(36)` for natural `n`. -/
def natToBase36Go (n : Nat) : List Char :=
  if h : n = 0 then []
  else digit36 (n % 36) :: natToBase36Go (n / 36)
termination_by n
decreasing_by exact Nat.div_lt_self (Nat.pos_of_ne_zero h) (by omega)

def natToBase36 (n : Nat) : String :=
  if n = 0 then "0" else String.mk (natToBase36Go n).reverse

/-- `MCPEnterpriseServer.hashObject`.  `none` models a JS `undefined`
argument (request with no `params`), on which the function throws. -/
def hashObject (obj : Option Json) : Except JsError String :=
  match obj with
  | none =>
      -- JSON.stringify(undefined, []) is undefined; `str.length` throws
      .error (.typeError "Cannot read properties of undefined (reading length)")
  | some j =>
      let K := (jsKeys j).insertionSort (fun a b => a ≤ b)
      .ok (natToBase36 (hashString (stringifyVal K j)).natAbs)

/-- `MCPEnterpriseServer.generateCacheKey` (file-tools.ts lines 1480-1483). -/
def generateCacheKey (method : String) (params : Option Json) :
    Except JsError String :=
  match hashObject params with
  | .error e => .error e
  | .ok paramsHash => .ok ("mcp:" ++ method ++ ":" ++ paramsHash)

/-- The cache key `generateCacheKey` produces when `params` is present
(it only throws for absent params). -/
def keyFor (method : String) (p : Json) : String :=
  "mcp:" ++ method ++ ":" ++
    natToBase36
      (hashString (stringifyVal ((jsKeys p).insertionSort (fun a b => a ≤ b)) p)).natAbs

/-! ## JSON-RPC protocol types (src/src/index.ts) -/

/-- A JSON-RPC request id: string, number or `null` (`null` marks a
notification). -/
inductive JsonId where
  | str (s : String)
  | num (n : Int)
  | null
deriving DecidableEq

structure JsonRpcError where
  code : Int
  message : String
  data : Option Json := none

/-- A JSON-RPC response (`jsonrpc` is always the literal `"2.0"`). -/
structure JsonRpcResponse where
  jsonrpc : String := "2.0"
  id : JsonId
  result : Option Json := none
  error : Option JsonRpcError := none

/-- A decoded request body.  `jsonrpc` and `method` are kept as raw JSON
values (`none` = field absent) because `validateJsonRpcRequest` inspects
their runtime type; `params` is `none` when the field is absent. -/
structure JsonRpcRequest where
  jsonrpc : Option Json
  method : Option Json
  params : Option Json
  id : JsonId

/-! Standard JSON-RPC error codes (src/src/index.ts lines 175-183). -/
namespace JsonRpcErrorCode

def PARSE_ERROR : Int := -32700
def INVALID_REQUEST : Int := -32600
def METHOD_NOT_FOUND : Int := -32601
def INVALID_PARAMS : Int := -32602
def INTERNAL_ERROR : Int := -32603

end JsonRpcErrorCode

/-! MCP-specific error codes (src/src/index.ts lines 186-193). -/
namespace McpErrorCode

def TOOL_NOT_FOUND : Int := -32001
def RESOURCE_NOT_FOUND : Int := -32002
def PERMISSION_DENIED : Int := -32003
def RATE_LIMITED : Int := -32004
def VALIDATION_ERROR : Int := -32005
def PROCESSING_ERROR : Int := -32006

end McpErrorCode

/-! ## Security context (src/src/index.ts, extractSecurityContext) -/

structure SecurityContext where
  userId : Option String
  roles : List String
  permissions : List String
  sessionId : String
  ipAddress : String

/-- JS truthiness of an optional string (`undefined` and `""` are falsy):
the test `!securityContext.userId` in `ToolRegistry.canExecuteTool` denies
exactly when this is `false`. -/
def jsTruthyStr : Option String → Bool
  | none => false
  | some s => !(s == "")

/-- `SecurityService.canExecuteTool` (src/unnamed/part_002 lines 52-55):
the resolved value is always `true`.  (In `handleToolCall` the call is not
even awaited, so the dispatcher tests the truthiness of the returned
promise — also always truthy; either way the guard never denies.) -/
def SecurityService.canExecuteTool (_ctx : SecurityContext)
    (_toolName : Option Json) : Bool :=
  true

/-- `SecurityService.canAccessResource` (src/unnamed/part_002 lines 57-60):
always `true`, with the same un-awaited usage in `handleResourceRead`. -/
def SecurityService.canAccessResource (_ctx : SecurityContext)
    (_uri : Option Json) : Bool :=
  true

/-! ## Tool registry (file-tools.ts lines 1665-2230) -/

structure ToolDescriptor where
  name : String
  description : String
  inputSchema : Json

/-- A tool handler.  The TypeScript handler is
`(args, securityContext, requestId) => Promise<{content}>`; the extra
`attempt` and `timeoutMs` arguments make the settled outcome of
`Promise.race([handler(...), timeoutPromise])` on each retry attempt an
explicit function (a timeout surfaces as
`.error (.error "Tool execution timeout")`). -/
abbrev ToolHandler : Type :=
  Json → SecurityContext → String → (attempt : Nat) → (timeoutMs : Nat) →
    Except JsError Json

/-- `ToolRegistrationOptions` as passed to `registerTool`; `none` is an
absent optional field. -/
structure ToolRegistrationOptions where
  requiresAuth : Option Bool := none
  requiredPermissions : Option (List String) := none
  timeout : Option Nat := none
  retries : Option Nat := none

/-- Options after `registerTool` applies its defaults
(`requiresAuth: options.requiresAuth || false`, etc., followed by
`...options`, under which a field present in `options` wins — the net
effect is `getD` on each field). -/
structure ResolvedOptions where
  requiresAuth : Bool
  requiredPermissions : List String
  timeout : Nat
  retries : Nat

def resolveOptions (o : ToolRegistrationOptions) : ResolvedOptions where
  requiresAuth := o.requiresAuth.getD false
  requiredPermissions := o.requiredPermissions.getD []
  timeout := o.timeout.getD 30000
  retries := o.retries.getD 0

structure RegisteredTool where
  tool : ToolDescriptor
  handler : ToolHandler
  options : ResolvedOptions
  executionCount : Nat
  lastExecuted : Option Nat

/-- The registry's `Map<string, RegisteredTool>`, as an insertion-ordered
association list (JS `Map` preserves insertion order; `set` of an existing
key updates in place). -/
abbrev ToolRegistry : Type := List (String × RegisteredTool)

/-- `Map.get`. -/
def registryLookup (reg : ToolRegistry) (name : String) : Option RegisteredTool :=
  match reg with
  | [] => none
  | (k, rt) :: rest => if k = name then some rt else registryLookup rest name

/-- `Map.set` of an existing key: update in place, preserving order. -/
def registryUpdate (reg : ToolRegistry) (name : String) (rt : RegisteredTool) :
    ToolRegistry :=
  match reg with
  | [] => []
  | (k, rt') :: rest =>
      if k = name then (k, rt) :: rest else (k, rt') :: registryUpdate rest name rt

inductive RegistrationError where
  | duplicateTool (name : String)
  | invalidToolDescriptor (msg : String)
deriving DecidableEq

/-- `ToolRegistry.validateToolSchema` (file-tools.ts lines 2119-2130):
Joi requires `name` and `description` to be non-empty strings and
`inputSchema` to be an object. -/
def validateToolSchema (t : ToolDescriptor) : Except RegistrationError Unit :=
  if t.name = "" then .error (.invalidToolDescriptor "name is required")
  else if t.description = "" then .error (.invalidToolDescriptor "description is required")
  else if !t.inputSchema.isObj then .error (.invalidToolDescriptor "inputSchema must be an object")
  else .ok ()

/-- `ToolRegistry.registerTool` (file-tools.ts lines 1716-1746): fails on a
duplicate name before any mutation, validates the schema, then inserts a
`RegisteredTool` with `executionCount: 0` and `lastExecuted: null`. -/
def registerTool (reg : ToolRegistry) (t : ToolDescriptor) (h : ToolHandler)
    (o : ToolRegistrationOptions) : Except RegistrationError ToolRegistry :=
  if (registryLookup reg t.name).isSome then
    .error (.duplicateTool t.name)
  else
    match validateToolSchema t with
    | .error e => .error e
    | .ok _ =>
        .ok (reg ++ [(t.name,
          { tool := t, handler := h, options := resolveOptions o,
            executionCount := 0, lastExecuted := none })])

/-- `ToolRegistry.canExecuteTool` (file-tools.ts lines 2048-2070). -/
def canExecuteTool (ctx : SecurityContext) (rt : RegisteredTool) : Bool :=
  if rt.options.requiresAuth && !jsTruthyStr ctx.userId then
    false
  else if !rt.options.requiredPermissions.isEmpty &&
      !(rt.options.requiredPermissions.all fun p => ctx.permissions.contains p) then
    false
  else
    true

/-- `ToolRegistry.getAvailableTools` (file-tools.ts lines 1762-1772):
descriptors of the tools the context may execute, in registration order. -/
def getAvailableTools (reg : ToolRegistry) (ctx : SecurityContext) :
    List ToolDescriptor :=
  (reg.filter fun p => canExecuteTool ctx p.2).map fun p => p.2.tool

/-- The retry loop of `ToolRegistry.executeWithTimeout` (file-tools.ts
lines 2087-2111), with `f attempt` the settled outcome of racing the
handler against the timeout on that attempt.  Returns the final outcome,
the number of handler invocations, and the list of backoff waits (in ms)
performed between attempts. -/
def executeLoop (f : Nat → Except JsError Json) (retries attempt : Nat) :
    Except JsError Json × Nat × List Nat :=
  match f attempt with
  | .ok r => (.ok r, 1, [])
  | .error e =>
      if attempt < retries then
        -- wait 2^attempt seconds, then retry
        let rest := executeLoop f retries (attempt + 1)
        (rest.1, rest.2.1 + 1, 2 ^ attempt * 1000 :: rest.2.2)
      else
        -- loop exits; `throw lastError` rethrows this attempt's error
        (.error e, 1, [])
termination_by retries - attempt
decreasing_by omega

/-- `options.timeout || 30000` (a zero timeout is falsy in JS). -/
def effectiveTimeout (o : ResolvedOptions) : Nat :=
  if o.timeout = 0 then 30000 else o.timeout

/-- The outcome of attempt `k` for a registered tool:
`Promise.race([handler(args, securityContext, requestId), timeout])`. -/
def attemptOutcome (rt : RegisteredTool) (args : Json) (ctx : SecurityContext)
    (requestId : String) (k : Nat) : Except JsError Json :=
  rt.handler args ctx requestId k (effectiveTimeout rt.options)

/-- `ToolRegistry.executeWithTimeout` (file-tools.ts lines 2075-2114):
`options.retries || 0` additional attempts with exponential backoff. -/
def executeWithTimeout (rt : RegisteredTool) (args : Json)
    (ctx : SecurityContext) (requestId : String) :
    Except JsError Json × Nat × List Nat :=
  executeLoop (attemptOutcome rt args ctx requestId) rt.options.retries 0

/-- Result of `ToolRegistry.executeTool`: the value or thrown error, the
registry after the call (counter mutations persist even when an error is
thrown), and how many times the handler was invoked. -/
structure ExecEffect where
  result : Except JsError Json
  registry : ToolRegistry
  invocations : Nat

/-- `ToolRegistry.executeTool` (file-tools.ts lines 1777-1858).  `name` is
`none` when the caller passed a non-string `name` (the `Map` lookup then
misses).  The security check precedes the counter increment, so a denied
call leaves the counter untouched; `validateToolArguments` never throws
(it catches internally and only warns). -/
def executeTool (reg : ToolRegistry) (name : Option String) (args : Json)
    (ctx : SecurityContext) (requestId : String) (now : Nat) : ExecEffect :=
  match name.bind (registryLookup reg) with
  | none =>
      { result := .error (.error ("Tool not found: " ++ name.getD "undefined")),
        registry := reg, invocations := 0 }
  | some rt =>
      if !canExecuteTool ctx rt then
        { result := .error (.error ("Access denied for tool: " ++ name.getD "undefined")),
          registry := reg, invocations := 0 }
      else
        let rt' := { rt with executionCount := rt.executionCount + 1,
                             lastExecuted := some now }
        let reg' := registryUpdate reg (name.getD "undefined") rt'
        let out := executeWithTimeout rt' args ctx requestId
        { result := out.1, registry := reg', invocations := out.2.1 }

/-! ## Plugin manager (src/unnamed/part_000 lines 81-84)

```ts
async handleMethod(method, params, id, securityContext): Promise<any> {
  throw new Error(`Method ${method} not implemented`);
}
```

The result type is `Option JsonRpcResponse` because `processRequest`
additionally tests `if (!response)` on a *returned* value; this
implementation never returns, it always throws. -/

def PluginManager.handleMethod (method : String) (_params : Option Json)
    (_id : JsonId) (_ctx : SecurityContext) :
    Except JsError (Option JsonRpcResponse) :=
  .error (.error ("Method " ++ method ++ " not implemented"))

/-! ## Server state

The mutable collaborators of `MCPEnterpriseServer` that the dispatcher
touches, plus observation counters for the verification (handler
invocations, and how often each list-building provider ran). -/

/-- Lookup in an insertion-ordered association list (JS `Map.get`). -/
def assocFind {A : Type} (l : List (String × A)) (k : String) : Option A :=
  match l with
  | [] => none
  | (k', v) :: rest => if k' = k then some v else assocFind rest k

/-- The cache's key/value store (`CacheService`), insertion ordered. -/
abbrev Cache : Type := List (String × JsonRpcResponse)

def cacheGet (c : Cache) (k : String) : Option JsonRpcResponse :=
  match c with
  | [] => none
  | (k', v) :: rest => if k' = k then some v else cacheGet rest k

def cacheSet (c : Cache) (k : String) (v : JsonRpcResponse) : Cache :=
  match c with
  | [] => [(k, v)]
  | (k', v') :: rest =>
      if k' = k then (k, v) :: rest else (k', v') :: cacheSet rest k v

structure ServerState where
  cache : Cache
  registry : ToolRegistry
  /-- `ResourceRegistry.resources` (`Map<uri, Resource>`). -/
  resources : List (String × Json)
  /-- how many times `ToolRegistry.getAvailableTools` has run. -/
  toolsListCalls : Nat
  /-- how many times `ResourceRegistry.getAvailableResources` has run. -/
  resourcesListCalls : Nat
  /-- cumulative number of tool-handler invocations. -/
  handlerInvocations : Nat
  /-- `Date.now()` during this request. -/
  now : Nat
  /-- `this.startTime`. -/
  startTime : Nat

/-- Stand-in for `new Date().toISOString()` at instant `n`. -/
def isoTimestamp (n : Nat) : String := toString n

/-- `MCPEnterpriseServer.createErrorResponse` (file-tools.ts lines
1448-1467); all dispatcher call sites pass no extra `data`. -/
def createErrorResponse (id : JsonId) (code : Int) (message : String)
    (now : Nat) : JsonRpcResponse where
  id := id
  error := some
    { code := code, message := message,
      data := some (Json.obj
        [("timestamp", Json.str (isoTimestamp now)),
         ("server", Json.str "@aezizhu/mcp-filebridge")]) }

/-- `MCPEnterpriseServer.isCacheableMethod` (file-tools.ts lines 1488-1491). -/
def isCacheableMethod (method : String) : Bool :=
  ["tools/list", "resources/list"].contains method

/-! ## Protocol handlers (file-tools.ts lines 1248-1379) -/

/-- `MCPEnterpriseServer.getServerInfo` as a JSON value. -/
def serverInfoJson : Json :=
  Json.obj
    [("name", Json.str "@aezizhu/mcp-filebridge"),
     ("version", Json.str "1.0.0"),
     ("description", Json.str "Smart MCP server that bridges LLMs to files and images with zero hallucination"),
     ("author", Json.str "aezizhu"),
     ("license", Json.str "MIT"),
     ("homepage", Json.str "https://github.com/aezizhu/mcp-filebridge")]

/-- `handleInitialize` (the `"initialize"` method): a static payload. -/
def handleInit (id : JsonId) : JsonRpcResponse where
  id := id
  result := some (Json.obj
    [("protocolVersion", Json.str "2024-11-05"),
     ("capabilities", Json.obj
        [("tools", Json.obj [("listChanged", Json.bool true)]),
         ("resources", Json.obj
            [("subscribe", Json.bool false), ("listChanged", Json.bool true)])]),
     ("serverInfo", serverInfoJson),
     ("instructions", Json.str "MCP FileBridge - Smart file and image bridge for LLMs. Use tools for accurate file reading and image analysis without hallucination.")])

def toolDescriptorJson (t : ToolDescriptor) : Json :=
  Json.obj
    [("name", Json.str t.name),
     ("description", Json.str t.description),
     ("inputSchema", t.inputSchema)]

/-- The response `handleToolsList` builds for a given state and context. -/
def toolsListResponse (st : ServerState) (ctx : SecurityContext)
    (id : JsonId) : JsonRpcResponse where
  id := id
  result := some (Json.obj
    [("tools", Json.arr ((getAvailableTools st.registry ctx).map toolDescriptorJson))])

/-- `handleToolsList` (file-tools.ts lines 1266-1282).  The embedded
`getAvailableTools` is total, so the catch branch (`PROCESSING_ERROR`,
"Failed to list tools") is unreachable here. -/
def handleToolsList (st : ServerState) (id : JsonId) (ctx : SecurityContext) :
    JsonRpcResponse × ServerState :=
  (toolsListResponse st ctx id,
   { st with toolsListCalls := st.toolsListCalls + 1 })

/-- The response `handleResourcesList` builds. -/
def resourcesListResponse (st : ServerState) (id : JsonId) : JsonRpcResponse where
  id := id
  result := some (Json.obj
    [("resources", Json.arr (st.resources.map fun p => p.2))])

/-- `handleResourcesList` (file-tools.ts lines 1317-1333);
`ResourceRegistry.getAvailableResources` returns every registered resource. -/
def handleResourcesList (st : ServerState) (id : JsonId) :
    JsonRpcResponse × ServerState :=
  (resourcesListResponse st id,
   { st with resourcesListCalls := st.resourcesListCalls + 1 })

/-- `handlePing` (file-tools.ts lines 1368-1379). -/
def handlePing (id : JsonId) (st : ServerState) : JsonRpcResponse where
  id := id
  result := some (Json.obj
    [("status", Json.str "pong"),
     ("timestamp", Json.str (isoTimestamp st.now)),
     ("uptime", Json.num (Int.ofNat st.now - Int.ofNat st.startTime)),
     ("version", Json.str "1.0.0")])

/-- `name` as used for the registry lookup: a string value is the `Map`
key, any other (or absent) value misses every entry. -/
def toolNameKey : Option Json → Option String
  | some (.str s) => some s
  | _ => none

/-- Shape the dispatcher's answer from `executeTool`'s outcome: a result
envelope on success, `PROCESSING_ERROR` from the `catch` on a throw;
either way the registry mutation and the handler invocations persist. -/
def toolCallRespond (st : ServerState) (eff : ExecEffect) (id : JsonId) :
    JsonRpcResponse × ServerState :=
  let st' := { st with registry := eff.registry,
                       handlerInvocations := st.handlerInvocations + eff.invocations }
  match eff.result with
  | .ok result => ({ id := id, result := some result }, st')
  | .error _ =>
      (createErrorResponse id McpErrorCode.PROCESSING_ERROR "Tool execution failed" st.now, st')

/-- `handleToolCall` (file-tools.ts lines 1287-1312).

`const { name, arguments: args } = params` throws a `TypeError` when
`params` is `undefined` or `null` (caught by this handler's own `catch`,
which returns `PROCESSING_ERROR`, "Tool execution failed"); on any other
value the destructuring yields `undefined` fields.  The
`!this.security.canExecuteTool(...)` guard never fires: the un-awaited
promise is truthy (and its resolved value is `true` anyway), so
`PERMISSION_DENIED` is dead code here.  A denial inside
`ToolRegistry.executeTool` is a thrown error, mapped by the `catch` to
`PROCESSING_ERROR`. -/
def handleToolCall (st : ServerState) (params : Option Json) (id : JsonId)
    (ctx : SecurityContext) (requestId : String) :
    JsonRpcResponse × ServerState :=
  match params with
  | none =>
      (createErrorResponse id McpErrorCode.PROCESSING_ERROR "Tool execution failed" st.now, st)
  | some .null =>
      (createErrorResponse id McpErrorCode.PROCESSING_ERROR "Tool execution failed" st.now, st)
  | some j =>
      let nameVal := jsonGetField j "name"
      if SecurityService.canExecuteTool ctx nameVal = false then
        -- dead branch, kept for fidelity
        (createErrorResponse id McpErrorCode.PERMISSION_DENIED "Access denied" st.now, st)
      else
        let args := (jsonGetField j "arguments").getD (Json.obj [])
        toolCallRespond st
          (executeTool st.registry (toolNameKey nameVal) args ctx requestId st.now) id

/-- `ResourceRegistry.getResource` keyed by the request's `uri` value: a
non-string `uri` misses every entry. -/
def resourceFor (resources : List (String × Json)) : Option Json → Option Json
  | some (.str u) => assocFind resources u
  | _ => none

/-- `handleResourceRead` (file-tools.ts lines 1338-1363).  Like
`handleToolCall`: destructuring `{ uri } = params` throws on
`undefined`/`null`; the `canAccessResource` guard is dead; a missing
resource makes `ResourceRegistry.readResource` throw, and the `catch`
returns `PROCESSING_ERROR`, "Resource read failed". -/
def handleResourceRead (st : ServerState) (params : Option Json) (id : JsonId)
    (ctx : SecurityContext) : JsonRpcResponse × ServerState :=
  match params with
  | none =>
      (createErrorResponse id McpErrorCode.PROCESSING_ERROR "Resource read failed" st.now, st)
  | some .null =>
      (createErrorResponse id McpErrorCode.PROCESSING_ERROR "Resource read failed" st.now, st)
  | some j =>
      let uriVal := jsonGetField j "uri"
      if SecurityService.canAccessResource ctx uriVal = false then
        (createErrorResponse id McpErrorCode.PERMISSION_DENIED "Access denied" st.now, st)
      else
        match resourceFor st.resources uriVal with
        | some r => ({ id := id, result := some (Json.obj [("contents", r)]) }, st)
        | none =>
            (createErrorResponse id McpErrorCode.PROCESSING_ERROR "Resource read failed" st.now, st)

/-- `validateJsonRpcRequest` (file-tools.ts lines 1416-1428): the body is
always an object here, so the first guard cannot fire; then
`request.jsonrpc !== '2.0'` and `!request.method || typeof request.method
!== 'string'` (an absent, empty or non-string `method` is rejected). -/
def validateJsonRpcRequest (req : JsonRpcRequest) : Except JsError String :=
  match req.jsonrpc with
  | some (.str v) =>
      if v = "2.0" then
        match req.method with
        | some (.str m) =>
            if m = "" then .error (.error "Invalid or missing method") else .ok m
        | _ => .error (.error "Invalid or missing method")
      else .error (.error "Invalid JSON-RPC version")
  | _ => .error (.error "Invalid JSON-RPC version")

/-- The `switch (method)` of `processRequest`, including the enclosing
`try/catch` whose only throwing arm is the `default` one (the plugin
manager): a throw there becomes an `INTERNAL_ERROR` ("Request processing
failed") response. -/
def dispatchMethod (st : ServerState) (method : String) (params : Option Json)
    (id : JsonId) (ctx : SecurityContext) (requestId : String) :
    JsonRpcResponse × ServerState :=
  match method with
  | "initialize" => (handleInit id, st)
  | "tools/list" => handleToolsList st id ctx
  | "tools/call" => handleToolCall st params id ctx requestId
  | "resources/list" => handleResourcesList st id
  | "resources/read" => handleResourceRead st params id ctx
  | "ping" => (handlePing id st, st)
  | _ =>
      match PluginManager.handleMethod method params id ctx with
      | .ok (some r) => (r, st)
      | .ok none =>
          (createErrorResponse id JsonRpcErrorCode.METHOD_NOT_FOUND
            ("Method not found: " ++ method) st.now, st)
      | .error _ =>
          -- caught by the catch of processRequest
          (createErrorResponse id JsonRpcErrorCode.INTERNAL_ERROR
            "Request processing failed" st.now, st)

/-- `processRequest` (file-tools.ts lines 1171-1243).

The cache key is computed *before* the `isCacheableMethod` test and before
the `try`, so a throw from `hashObject` (absent `params`) propagates out of
`processRequest` (the `.error` result) with the state untouched.  The
`switch` runs inside a `try` whose `catch` yields an `INTERNAL_ERROR`
("Request processing failed") response; the only arm that can throw is the
`default` arm (the plugin manager).  A successful response of a cacheable
method is stored with `ttl: 300`. -/
def processRequest (st : ServerState) (method : String) (params : Option Json)
    (id : JsonId) (ctx : SecurityContext) (requestId : String) :
    Except JsError JsonRpcResponse × ServerState :=
  match generateCacheKey method params with
  | .error e => (.error e, st)
  | .ok cacheKey =>
    match (if isCacheableMethod method then cacheGet st.cache cacheKey else none) with
    | some cached => (.ok cached, st)
    | none =>
      if isCacheableMethod method &&
          (dispatchMethod st method params id ctx requestId).1.error.isNone then
        (.ok (dispatchMethod st method params id ctx requestId).1,
         { (dispatchMethod st method params id ctx requestId).2 with
             cache := cacheSet (dispatchMethod st method params id ctx requestId).2.cache
                        cacheKey (dispatchMethod st method params id ctx requestId).1 })
      else
        (.ok (dispatchMethod st method params id ctx requestId).1,
         (dispatchMethod st method params id ctx requestId).2)

/-- `handleMcpRequest` (file-tools.ts lines 1116-1166): validate, process,
and answer with the response — for *every* request, notification or not
(`res.json(response)` is unconditional).  Any throw (envelope validation,
or the cache-key hash) is caught and answered with an `INTERNAL_ERROR`
("Internal server error") response whose id is `null`. -/
def handleMcpRequest (st : ServerState) (req : JsonRpcRequest)
    (ctx : SecurityContext) (requestId : String) :
    JsonRpcResponse × ServerState :=
  match validateJsonRpcRequest req with
  | .error _ =>
      (createErrorResponse JsonId.null JsonRpcErrorCode.INTERNAL_ERROR
        "Internal server error" st.now, st)
  | .ok m =>
      match processRequest st m req.params req.id ctx requestId with
      | (.error _, st') =>
          (createErrorResponse JsonId.null JsonRpcErrorCode.INTERNAL_ERROR
            "Internal server error" st'.now, st')
      | (.ok response, st') => (response, st')

/-! ## Concrete fixtures

A small registry and server state used by the witnesses and
counterexamples below. -/

/-- The default security context `extractSecurityContext` builds when the
`x-user-id` header is present (file-tools.ts lines 1433-1443). -/
def ctx0 : SecurityContext where
  userId := some "user-1"
  roles := ["user"]
  permissions := ["read", "write"]
  sessionId := "sess-1"
  ipAddress := "127.0.0.1"

/-- A handler that always succeeds immediately. -/
def okHandler : ToolHandler :=
  fun _ _ _ _ _ => .ok (Json.obj [("content", Json.arr [Json.obj
    [("type", Json.str "text"), ("text", Json.str "ok")]])])

def secureToolDesc : ToolDescriptor where
  name := "secure_tool"
  description := "requires the admin permission"
  inputSchema := Json.obj []

/-- A registered tool whose policy demands the `admin` permission. -/
def secureTool : RegisteredTool where
  tool := secureToolDesc
  handler := okHandler
  options :=
    { requiresAuth := false, requiredPermissions := ["admin"],
      timeout := 30000, retries := 0 }
  executionCount := 0
  lastExecuted := none

def reg1 : ToolRegistry := [("secure_tool", secureTool)]

/-- A server state with an empty cache and `reg1` as tool registry. -/
def st1 : ServerState where
  cache := []
  registry := reg1
  resources := []
  toolsListCalls := 0
  resourcesListCalls := 0
  handlerInvocations := 0
  now := 0
  startTime := 0

/-- The failure each failing retry attempt reports. -/
def boomErr : JsError := .error "boom"

def retryOkResult : Json :=
  Json.obj [("content", Json.arr [Json.obj
    [("type", Json.str "text"), ("text", Json.str "third time lucky")]])]

/-- A handler that fails on attempts 0 and 1 and succeeds on attempt 2. -/
def flakyHandler : ToolHandler :=
  fun _ _ _ attempt _ => if attempt < 2 then .error boomErr else .ok retryOkResult

/-- A tool with `maxRetries = 2` bound to `flakyHandler`. -/
def retryTool : RegisteredTool where
  tool :=
    { name := "flaky_tool", description := "fails twice then succeeds",
      inputSchema := Json.obj [] }
  handler := flakyHandler
  options :=
    { requiresAuth := false, requiredPermissions := [],
      timeout := 30000, retries := 2 }
  executionCount := 0
  lastExecuted := none

def freshToolDesc : ToolDescriptor where
  name := "fresh_tool"
  description := "a new tool"
  inputSchema := Json.obj []

/-- The entry `registerTool` creates for `freshToolDesc`. -/
def freshRegistered : RegisteredTool where
  tool := freshToolDesc
  handler := okHandler
  options := resolveOptions {}
  executionCount := 0
  lastExecuted := none

/-- `params` naming the permission-protected tool. -/
def callSecureParams : Json := Json.obj [("name", Json.str "secure_tool")]

/-- A `ping` notification (`id == null`). -/
def notifPing : JsonRpcRequest where
  jsonrpc := some (.str "2.0")
  method := some (.str "ping")
  params := some (Json.obj [])
  id := JsonId.null

/-- The identical `ping` request with `id := 7`. -/
def pingWithId : JsonRpcRequest where
  jsonrpc := some (.str "2.0")
  method := some (.str "ping")
  params := some (Json.obj [])
  id := JsonId.num 7

/-- A request whose method matches no handler. -/
def unknownMethodReq : JsonRpcRequest where
  jsonrpc := some (.str "2.0")
  method := some (.str "unknown_method")
  params := some (Json.obj [])
  id := JsonId.num 4

/-- A request with the wrong protocol version. -/
def badVersionReq : JsonRpcRequest where
  jsonrpc := some (.str "1.0")
  method := some (.str "ping")
  params := some (Json.obj [])
  id := JsonId.num 1

/-- A request with no `method` field. -/
def missingMethodReq : JsonRpcRequest where
  jsonrpc := some (.str "2.0")
  method := none
  params := some (Json.obj [])
  id := JsonId.num 5

/-! ## Helper lemmas -/

theorem generateCacheKey_some (method : String) (p : Json) :
    generateCacheKey method (some p) = .ok (keyFor method p) := rfl

theorem cacheGet_cacheSet_self (c : Cache) (k : String) (v : JsonRpcResponse) :
    cacheGet (cacheSet c k v) k = some v := by
  induction c with
  | nil => simp [cacheSet, cacheGet]
  | cons hd tl ih =>
      obtain ⟨k', v'⟩ := hd
      by_cases hk : k' = k
      · simp [cacheSet, hk, cacheGet]
      · simp [cacheSet, hk, cacheGet, ih]

theorem registryLookup_append_self (reg : ToolRegistry) (name : String)
    (rt : RegisteredTool) (hnone : registryLookup reg name = none) :
    registryLookup (reg ++ [(name, rt)]) name = some rt := by
  induction reg with
  | nil => simp [registryLookup]
  | cons hd tl ih =>
      obtain ⟨k', rt'⟩ := hd
      by_cases hk : k' = name
      · simp [registryLookup, hk] at hnone
      · simp only [registryLookup, hk, if_false, List.cons_append] at hnone ⊢
        exact ih hnone

theorem canExecuteTool_iff (ctx : SecurityContext) (rt : RegisteredTool) :
    canExecuteTool ctx rt = true ↔
      ((rt.options.requiresAuth = true → jsTruthyStr ctx.userId = true) ∧
       ∀ p ∈ rt.options.requiredPermissions, p ∈ ctx.permissions) := by
  unfold canExecuteTool
  rcases hAuth : rt.options.requiresAuth with _ | _ <;>
    rcases hUid : jsTruthyStr ctx.userId with _ | _ <;>
      rcases hPerms : rt.options.requiredPermissions with _ | ⟨q, qs⟩ <;>
        simp_all [List.all_eq_true, List.elem_iff]

/-! ## Claims -/

/-- **C8.** The permission gate `ToolRegistry.canExecuteTool` is a pure
predicate: it permits execution if and only if (the policy's
`requiresAuth` implies the security context carries a (truthy) `userId`)
and every permission in `requiredPermissions` is contained in the
context's `permissions`; a single missing permission denies the call. -/
theorem claim_C8_permission_gate (ctx : SecurityContext) (rt : RegisteredTool) :
    canExecuteTool ctx rt = true ↔
      ((rt.options.requiresAuth = true → jsTruthyStr ctx.userId = true) ∧
       ∀ p ∈ rt.options.requiredPermissions, p ∈ ctx.permissions) :=
  canExecuteTool_iff ctx rt

/-- **C2.** The claim says a notification (`id == null`) produces no
response value at all.  The code disagrees: `handleMcpRequest` calls
`res.json(response)` unconditionally and never inspects `id`, so the
`ping` notification receives exactly the same (full, result-carrying)
response as the identical request with `id = 7` — only the echoed `id`
differs.  This theorem evaluates the dispatcher at the failing input. -/
theorem claim_C2_code_behavior :
    (handleMcpRequest st1 notifPing ctx0 "r2a").1 = handlePing JsonId.null st1 ∧
    (handlePing JsonId.null st1).result.isSome = true ∧
    (handlePing JsonId.null st1).error = none ∧
    (handleMcpRequest st1 pingWithId ctx0 "r2b").1 = handlePing (JsonId.num 7) st1 :=
  ⟨rfl, rfl, rfl, rfl⟩

/-- **C3.** The claim (and the repository's own test suite) expect
`MethodNotFound` (`-32601`) for an unhandled method.  The code instead
returns `INTERNAL_ERROR` (`-32603`, "Request processing failed"):
`PluginManager.handleMethod` *throws* (`Method ... not implemented`)
rather than returning nothing, so `processRequest`'s `catch` fires and the
`if (!response) → METHOD_NOT_FOUND` branch is dead.  This theorem
evaluates the dispatcher at the failing input. -/
theorem claim_C3_code_behavior :
    (handleMcpRequest st1 unknownMethodReq ctx0 "r3").1
      = createErrorResponse (JsonId.num 4) JsonRpcErrorCode.INTERNAL_ERROR
          "Request processing failed" st1.now ∧
    PluginManager.handleMethod "unknown_method" (some (Json.obj [])) (JsonId.num 4) ctx0
      = .error (.error "Method unknown_method not implemented") ∧
    JsonRpcErrorCode.INTERNAL_ERROR ≠ JsonRpcErrorCode.METHOD_NOT_FOUND :=
  ⟨rfl, rfl, by decide⟩

/-- **C4.** The claim (and the repository's test suite) expect an
`InvalidRequest` (`-32600`) error for a request whose version differs from
`"2.0"` or whose method is absent/empty.  The "never invokes cache or
execution" half is true — the returned state is exactly the input state —
but `validateJsonRpcRequest` throws a plain `Error`, which
`handleMcpRequest`'s `catch` converts to `INTERNAL_ERROR` (`-32603`,
"Internal server error", id `null`), not `InvalidRequest`.  This theorem
evaluates the dispatcher at the failing inputs. -/
theorem claim_C4_code_behavior :
    handleMcpRequest st1 badVersionReq ctx0 "r4a"
      = (createErrorResponse JsonId.null JsonRpcErrorCode.INTERNAL_ERROR
          "Internal server error" st1.now, st1) ∧
    handleMcpRequest st1 missingMethodReq ctx0 "r4b"
      = (createErrorResponse JsonId.null JsonRpcErrorCode.INTERNAL_ERROR
          "Internal server error" st1.now, st1) ∧
    JsonRpcErrorCode.INTERNAL_ERROR ≠ JsonRpcErrorCode.INVALID_REQUEST :=
  ⟨rfl, rfl, by decide⟩

/-- **C7.** Registering a tool whose name already exists fails with
`DuplicateTool` before any mutation (in this functional embedding no new
registry is produced, so lookups keep answering with the first
registration's entry), and a successful fresh registration appends an
entry with `executionCount = 0` and `lastExecuted` unset. -/
theorem claim_C7_registration (reg : ToolRegistry) (t : ToolDescriptor)
    (h : ToolHandler) (o : ToolRegistrationOptions) :
    (∀ rt0, registryLookup reg t.name = some rt0 →
       registerTool reg t h o = .error (.duplicateTool t.name) ∧
       registryLookup reg t.name = some rt0) ∧
    (∀ reg', registerTool reg t h o = .ok reg' →
       reg' = reg ++ [(t.name,
         { tool := t, handler := h, options := resolveOptions o,
           executionCount := 0, lastExecuted := none })] ∧
       registryLookup reg' t.name = some
         { tool := t, handler := h, options := resolveOptions o,
           executionCount := 0, lastExecuted := none }) := by
  constructor
  · intro rt0 hlook
    refine ⟨?_, hlook⟩
    unfold registerTool
    rw [hlook]
    rfl
  · intro reg' hok
    unfold registerTool at hok
    rcases hsome : (registryLookup reg t.name).isSome with _ | _
    · rw [hsome] at hok
      simp only [Bool.false_eq_true, if_false] at hok
      rcases hval : validateToolSchema t with e | u
      · rw [hval] at hok; cases hok
      · rw [hval] at hok
        simp only [Except.ok.injEq] at hok
        subst hok
        refine ⟨rfl, ?_⟩
        exact registryLookup_append_self reg t.name _
          (by rcases hl : registryLookup reg t.name with _ | rt1
              · rfl
              · rw [hl] at hsome; cases hsome)
    · rw [hsome] at hok
      simp only [if_true] at hok
      cases hok

/-- **C7 witness.**  Re-registering `secure_tool` into `reg1` fails with
`DuplicateTool` and the first entry is still what lookup returns;
registering the fresh `fresh_tool` succeeds with zeroed counters. -/
theorem claim_C7_registration_witness :
    (registryLookup reg1 "secure_tool" = some secureTool) ∧
    (registerTool reg1 secureToolDesc okHandler {} = .error (.duplicateTool "secure_tool") ∧
     registryLookup reg1 "secure_tool" = some secureTool) ∧
    (reg1 ++ [("fresh_tool", freshRegistered)]
       = reg1 ++ [(freshToolDesc.name, freshRegistered)] ∧
     registryLookup (reg1 ++ [("fresh_tool", freshRegistered)]) "fresh_tool"
       = some freshRegistered) := by
  refine ⟨rfl, ?_, ?_⟩
  · exact (claim_C7_registration reg1 secureToolDesc okHandler {}).1 secureTool rfl
  · exact (claim_C7_registration reg1 freshToolDesc okHandler {}).2
      (reg1 ++ [("fresh_tool", freshRegistered)]) rfl

/-! ## Retry-loop lemmas (for C5) -/

theorem executeLoop_invocations_le (f : Nat → Except JsError Json) :
    ∀ (n attempt retries : Nat), retries - attempt ≤ n →
      (executeLoop f retries attempt).2.1 ≤ n + 1 := by
  intro n
  induction n with
  | zero =>
      intro attempt retries hle
      unfold executeLoop
      cases hf : f attempt with
      | ok r => simp
      | error e =>
          have hnlt : ¬ attempt < retries := by omega
          simp [hnlt]
  | succ k ih =>
      intro attempt retries hle
      unfold executeLoop
      cases hf : f attempt with
      | ok r => simp
      | error e =>
          by_cases hlt : attempt < retries
          · have := ih (attempt + 1) retries (by omega)
            simp only [hlt, if_true]
            omega
          · simp [hlt]

theorem executeLoop_first_success (f : Nat → Except JsError Json) :
    ∀ (m attempt retries : Nat) (x : Json),
      (∀ k, attempt ≤ k → k < attempt + m → ∃ e, f k = .error e) →
      f (attempt + m) = .ok x → attempt + m ≤ retries →
      executeLoop f retries attempt
        = (.ok x, m + 1, (List.range' attempt m).map fun k => 2 ^ k * 1000) := by
  intro m
  induction m with
  | zero =>
      intro attempt retries x _ hok _
      rw [Nat.add_zero] at hok
      unfold executeLoop
      rw [hok]
      simp [List.range']
  | succ m ih =>
      intro attempt retries x hfail hok hle
      obtain ⟨e, he⟩ := hfail attempt le_rfl (by omega)
      have hlt : attempt < retries := by omega
      unfold executeLoop
      rw [he]
      simp only [hlt, if_true]
      have hrec := ih (attempt + 1) retries x
        (fun k hk1 hk2 => hfail k (by omega) (by omega))
        (by rw [show attempt + 1 + m = attempt + (m + 1) by omega]; exact hok)
        (by omega)
      rw [hrec]
      simp [List.range']

theorem executeLoop_exhausted (f : Nat → Except JsError Json) :
    ∀ (n attempt retries : Nat) (e : JsError),
      retries - attempt = n → attempt ≤ retries →
      (∀ k, attempt ≤ k → k ≤ retries → ∃ er, f k = .error er) →
      f retries = .error e →
      executeLoop f retries attempt
        = (.error e, retries - attempt + 1,
           (List.range' attempt (retries - attempt)).map fun k => 2 ^ k * 1000) := by
  intro n
  induction n with
  | zero =>
      intro attempt retries e hn hle _ hlast
      have heq : attempt = retries := by omega
      subst heq
      unfold executeLoop
      rw [hlast]
      have hnlt : ¬ attempt < attempt := by omega
      simp [hnlt, List.range']
  | succ k ih =>
      intro attempt retries e hn hle hfail hlast
      obtain ⟨er, her⟩ := hfail attempt le_rfl hle
      have hlt : attempt < retries := by omega
      unfold executeLoop
      rw [her]
      simp only [hlt, if_true]
      have hrec := ih (attempt + 1) retries e (by omega) (by omega)
        (fun j hj1 hj2 => hfail j (by omega) hj2) hlast
      rw [hrec]
      have h1 : retries - (attempt + 1) + 1 + 1 = retries - attempt + 1 := by omega
      have h2 : retries - attempt = (retries - (attempt + 1)) + 1 := by omega
      rw [h1, h2, List.range']
      simp

/-- **C5.** The execution supervisor `ToolRegistry.executeWithTimeout`
for a registered tool with `maxRetries = r` (`options.retries`):
(i) it invokes the handler at most `r + 1` times;
(ii) if the first success is attempt `j` (0-based, `j ≤ r`), it stops
there, returns the handler's result unchanged after exactly `j + 1`
invocations, and the backoff waits performed are `2^k * 1000` ms after
each failed attempt `k < j` (none before the first attempt);
(iii) if every attempt up to `r` fails, the final attempt's error is what
propagates, after exactly `r + 1` invocations, with waits
`2^0, …, 2^(r-1)` seconds between the attempts. -/
theorem claim_C5_retry_policy (rt : RegisteredTool) (args : Json)
    (ctx : SecurityContext) (requestId : String) :
    ((executeWithTimeout rt args ctx requestId).2.1 ≤ rt.options.retries + 1) ∧
    (∀ j x,
       (∀ k, k < j → ∃ e, attemptOutcome rt args ctx requestId k = .error e) →
       attemptOutcome rt args ctx requestId j = .ok x → j ≤ rt.options.retries →
       executeWithTimeout rt args ctx requestId
         = (.ok x, j + 1, (List.range j).map fun k => 2 ^ k * 1000)) ∧
    (∀ e,
       (∀ k, k ≤ rt.options.retries →
          ∃ er, attemptOutcome rt args ctx requestId k = .error er) →
       attemptOutcome rt args ctx requestId rt.options.retries = .error e →
       executeWithTimeout rt args ctx requestId
         = (.error e, rt.options.retries + 1,
            (List.range rt.options.retries).map fun k => 2 ^ k * 1000)) := by
  refine ⟨?_, ?_, ?_⟩
  · exact executeLoop_invocations_le _ rt.options.retries 0 rt.options.retries (by omega)
  · intro j x hfail hok hle
    have := executeLoop_first_success (attemptOutcome rt args ctx requestId)
      j 0 rt.options.retries x (fun k _ hk => hfail k (by omega))
      (by simpa using hok) (by omega)
    rw [List.range_eq_range']
    exact this
  · intro e hfail hlast
    have := executeLoop_exhausted (attemptOutcome rt args ctx requestId)
      rt.options.retries 0 rt.options.retries e (by omega) (by omega)
      (fun k _ hk => hfail k hk) hlast
    rw [List.range_eq_range']
    simpa using this

/-- **C5 witness.**  `retryTool` has `maxRetries = 2` and a handler that
fails attempts 0 and 1 and succeeds on attempt 2: the supervised call
returns the success after exactly 3 handler invocations, having waited
1000 ms then 2000 ms between the attempts. -/
theorem claim_C5_retry_policy_witness :
    executeWithTimeout retryTool (Json.obj []) ctx0 "r5"
      = (.ok retryOkResult, 3, [1000, 2000]) := by
  have h := (claim_C5_retry_policy retryTool (Json.obj []) ctx0 "r5").2.1 2 retryOkResult
    (fun k hk => ⟨boomErr, by
      simp only [attemptOutcome, retryTool, flakyHandler]
      rw [if_pos hk]⟩)
    (by simp only [attemptOutcome, retryTool, flakyHandler]; rfl)
    (by simp [retryTool])
  simpa using h

/-! ## Dispatcher lemmas (for C1, C6, C9, C10) -/

theorem processRequest_cache_hit (st : ServerState) (method : String)
    (params : Option Json) (id : JsonId) (ctx : SecurityContext)
    (requestId key : String) (resp : JsonRpcResponse)
    (hc : isCacheableMethod method = true)
    (hkey : generateCacheKey method params = .ok key)
    (hhit : cacheGet st.cache key = some resp) :
    processRequest st method params id ctx requestId = (.ok resp, st) := by
  unfold processRequest
  rw [hkey, hc]
  simp [hhit]

theorem toolCallRespond_cache (st : ServerState) (eff : ExecEffect) (id : JsonId) :
    (toolCallRespond st eff id).2.cache = st.cache := by
  obtain ⟨res, reg, inv⟩ := eff
  cases res <;> rfl

theorem handleToolCall_cache (st : ServerState) (params : Option Json)
    (id : JsonId) (ctx : SecurityContext) (requestId : String) :
    (handleToolCall st params id ctx requestId).2.cache = st.cache := by
  unfold handleToolCall
  split
  · rfl
  · rfl
  · simp only [SecurityService.canExecuteTool]
    exact toolCallRespond_cache ..

theorem handleResourceRead_state (st : ServerState) (params : Option Json)
    (id : JsonId) (ctx : SecurityContext) :
    (handleResourceRead st params id ctx).2 = st := by
  unfold handleResourceRead
  split
  · rfl
  · rfl
  · simp only [SecurityService.canAccessResource]
    split
    · rfl
    · split <;> rfl

theorem dispatchMethod_cache (st : ServerState) (method : String)
    (params : Option Json) (id : JsonId) (ctx : SecurityContext)
    (requestId : String) :
    (dispatchMethod st method params id ctx requestId).2.cache = st.cache := by
  unfold dispatchMethod
  split
  · rfl
  · rfl
  · exact handleToolCall_cache ..
  · rfl
  · rw [handleResourceRead_state]
  · rfl
  · split <;> rfl

theorem processRequest_stores_only_ok (st : ServerState) (method : String)
    (params : Option Json) (id : JsonId) (ctx : SecurityContext)
    (requestId : String) :
    (processRequest st method params id ctx requestId).2.cache = st.cache ∨
    ∃ resp, (processRequest st method params id ctx requestId).1 = .ok resp ∧
      resp.error = none := by
  unfold processRequest
  split
  · left; rfl
  · split
    · left; rfl
    · by_cases hstore :
          (isCacheableMethod method &&
            (dispatchMethod st method params id ctx requestId).1.error.isNone) = true
      · right
        rw [if_pos hstore]
        exact ⟨(dispatchMethod st method params id ctx requestId).1, rfl,
          Option.isNone_iff_eq_none.mp ((Bool.and_eq_true _ _).mp hstore).2⟩
      · left
        rw [if_neg hstore]
        exact dispatchMethod_cache ..

theorem isCacheable_toolsList : isCacheableMethod "tools/list" = true := rfl

theorem isCacheable_resourcesList : isCacheableMethod "resources/list" = true := rfl

theorem processRequest_toolsList_miss (st : ServerState) (p : Json)
    (id : JsonId) (ctx : SecurityContext) (requestId : String)
    (hmiss : cacheGet st.cache (keyFor "tools/list" p) = none) :
    processRequest st "tools/list" (some p) id ctx requestId
      = (.ok (toolsListResponse st ctx id),
         { st with toolsListCalls := st.toolsListCalls + 1,
                   cache := cacheSet st.cache (keyFor "tools/list" p)
                              (toolsListResponse st ctx id) }) := by
  unfold processRequest
  simp only [generateCacheKey_some, isCacheable_toolsList, if_true, hmiss]
  rfl

theorem processRequest_resourcesList_miss (st : ServerState) (q : Json)
    (id : JsonId) (ctx : SecurityContext) (requestId : String)
    (hmiss : cacheGet st.cache (keyFor "resources/list" q) = none) :
    processRequest st "resources/list" (some q) id ctx requestId
      = (.ok (resourcesListResponse st id),
         { st with resourcesListCalls := st.resourcesListCalls + 1,
                   cache := cacheSet st.cache (keyFor "resources/list" q)
                              (resourcesListResponse st id) }) := by
  unfold processRequest
  simp only [generateCacheKey_some, isCacheable_resourcesList, if_true, hmiss]
  rfl

/-- From `ToolRegistry.executeTool`: a `tools/call` whose tool denies the
caller throws *before* touching the counter or the handler, and
`handleToolCall`'s `catch` maps that throw to `PROCESSING_ERROR`. -/
theorem handleToolCall_denied (st : ServerState) (ctx : SecurityContext)
    (fs : List (String × Json)) (name : String) (rt : RegisteredTool)
    (id : JsonId) (requestId : String)
    (hname : jsonGetField (Json.obj fs) "name" = some (Json.str name))
    (hlook : registryLookup st.registry name = some rt)
    (hdeny : canExecuteTool ctx rt = false) :
    handleToolCall st (some (Json.obj fs)) id ctx requestId
      = (createErrorResponse id McpErrorCode.PROCESSING_ERROR
          "Tool execution failed" st.now, st) := by
  unfold handleToolCall
  simp only [hname, SecurityService.canExecuteTool]
  unfold toolCallRespond executeTool toolNameKey
  simp only [Option.bind, hlook, hdeny]
  rfl

/-- **C1 counterexample.**  `secure_tool` is registered and requires the
`admin` permission, which `ctx0` lacks: the claim says the dispatcher
answers `PermissionDenied` (`-32003`); it in fact answers
`PROCESSING_ERROR` (`-32006`, "Tool execution failed").  The returned
state equals the input state, so the handler was not invoked and the
tool's execution counter is still 0. -/
theorem claim_C1_counterexample :
    registryLookup st1.registry "secure_tool" = some secureTool ∧
    "admin" ∈ secureTool.options.requiredPermissions ∧
    "admin" ∉ ctx0.permissions ∧
    processRequest st1 "tools/call" (some callSecureParams) (JsonId.num 1) ctx0 "r1"
      = (.ok (createErrorResponse (JsonId.num 1) McpErrorCode.PROCESSING_ERROR
          "Tool execution failed" 0), st1) ∧
    McpErrorCode.PROCESSING_ERROR ≠ McpErrorCode.PERMISSION_DENIED := by
  refine ⟨rfl, ?_, ?_, rfl, by decide⟩
  · simp [secureTool]
  · simp [ctx0]

/-- **C1 (amended).**  For every `tools/call` request naming a registered
tool whose policy lists a required permission absent from the caller's
`permissions`, the dispatcher returns a *ProcessingError* (`-32006`,
"Tool execution failed") — not `PermissionDenied` — and the tool's handler
is never invoked: the returned server state equals the input state, so
`handlerInvocations` and the tool's `executionCount` are unchanged (a
freshly registered tool's counter therefore remains 0). -/
theorem claim_C1_amended (st : ServerState) (ctx : SecurityContext) (j : Json)
    (name : String) (rt : RegisteredTool) (id : JsonId) (requestId : String)
    (p : String)
    (hname : jsonGetField j "name" = some (Json.str name))
    (hlook : registryLookup st.registry name = some rt)
    (hp : p ∈ rt.options.requiredPermissions)
    (hnp : p ∉ ctx.permissions) :
    processRequest st "tools/call" (some j) id ctx requestId
      = (.ok (createErrorResponse id McpErrorCode.PROCESSING_ERROR
          "Tool execution failed" st.now), st) := by
  have hdeny : canExecuteTool ctx rt = false := by
    rcases Bool.eq_false_or_eq_true (canExecuteTool ctx rt) with h | h
    · exact absurd (((canExecuteTool_iff ctx rt).mp h).2 p hp) hnp
    · exact h
  rcases j with _ | b | n | s | elems | fs
  · simp [jsonGetField] at hname
  · simp [jsonGetField] at hname
  · simp [jsonGetField] at hname
  · simp [jsonGetField] at hname
  · simp [jsonGetField] at hname
  · have hcall := handleToolCall_denied st ctx fs name rt id requestId hname hlook hdeny
    unfold processRequest
    simp only [generateCacheKey_some]
    unfold dispatchMethod
    rw [hcall]
    rfl

/-- **C1 witness.**  The amended claim applied to `secure_tool` and
`ctx0`. -/
theorem claim_C1_amended_witness :
    jsonGetField callSecureParams "name" = some (Json.str "secure_tool") ∧
    registryLookup st1.registry "secure_tool" = some secureTool ∧
    "admin" ∈ secureTool.options.requiredPermissions ∧
    "admin" ∉ ctx0.permissions ∧
    processRequest st1 "tools/call" (some callSecureParams) (JsonId.num 2) ctx0 "w1"
      = (.ok (createErrorResponse (JsonId.num 2) McpErrorCode.PROCESSING_ERROR
          "Tool execution failed" st1.now), st1) :=
  ⟨rfl, rfl, by simp [secureTool], by simp [ctx0],
   claim_C1_amended st1 ctx0 callSecureParams "secure_tool" secureTool
     (JsonId.num 2) "w1" "admin" rfl rfl (by simp [secureTool]) (by simp [ctx0])⟩

/-- **C9.** For every request with a valid envelope whose `params` field is
absent, the cache-key hashing throws before any method dispatch:
`processRequest` propagates the `TypeError` with the state untouched (no
cache lookup, no handler, no per-method logic), and `handleMcpRequest`
answers with an `INTERNAL_ERROR` (`-32603`) response whose id is `null`
regardless of the request's method and even when the request carried a
non-null id. -/
theorem claim_C9_absent_params (st : ServerState) (method : String)
    (id : JsonId) (ctx : SecurityContext) (requestId : String)
    (hm : method ≠ "") :
    processRequest st method none id ctx requestId
      = (.error (.typeError "Cannot read properties of undefined (reading length)"), st) ∧
    handleMcpRequest st
        { jsonrpc := some (.str "2.0"), method := some (.str method),
          params := none, id := id } ctx requestId
      = (createErrorResponse JsonId.null JsonRpcErrorCode.INTERNAL_ERROR
          "Internal server error" st.now, st) := by
  have hproc : processRequest st method none id ctx requestId
      = (.error (.typeError "Cannot read properties of undefined (reading length)"), st) := rfl
  refine ⟨hproc, ?_⟩
  unfold handleMcpRequest validateJsonRpcRequest
  simp only [hm, if_false, if_true]
  rw [hproc]

/-- **C9 witness.**  A `ping` request with `id = 5` and no `params` gets
internal error `-32603` with id `null`, and the state is untouched. -/
theorem claim_C9_absent_params_witness :
    ("ping" : String) ≠ "" ∧
    (processRequest st1 "ping" none (JsonId.num 5) ctx0 "r9"
       = (.error (.typeError "Cannot read properties of undefined (reading length)"), st1) ∧
     handleMcpRequest st1
         { jsonrpc := some (.str "2.0"), method := some (.str "ping"),
           params := none, id := JsonId.num 5 } ctx0 "r9"
       = (createErrorResponse JsonId.null JsonRpcErrorCode.INTERNAL_ERROR
           "Internal server error" st1.now, st1)) :=
  ⟨by decide, claim_C9_absent_params st1 "ping" (JsonId.num 5) ctx0 "r9" (by decide)⟩

/-- **C6.** For the whitelisted cacheable methods — exactly `tools/list`
and `resources/list` — issuing the same request twice in immediate
succession returns identical responses: the first execution runs the
underlying list-building provider once (its invocation counter increases
by exactly 1) and stores the response; the second is served from the cache
unchanged, with no further provider invocation and no state change.
Responses are stored only when they carry no error (final conjunct, for
every request whatsoever). -/
theorem claim_C6_cacheable_methods (st : ServerState) (ctx : SecurityContext)
    (p q : Json) (id id' : JsonId) (ra rb rc rd : String)
    (hmiss : cacheGet st.cache (keyFor "tools/list" p) = none)
    (hmiss' : cacheGet st.cache (keyFor "resources/list" q) = none) :
    (∀ m, isCacheableMethod m = true ↔ (m = "tools/list" ∨ m = "resources/list")) ∧
    (∃ resp stA,
       processRequest st "tools/list" (some p) id ctx ra = (.ok resp, stA) ∧
       resp.error = none ∧
       stA.toolsListCalls = st.toolsListCalls + 1 ∧
       processRequest stA "tools/list" (some p) id ctx rb = (.ok resp, stA)) ∧
    (∃ resp stA,
       processRequest st "resources/list" (some q) id' ctx rc = (.ok resp, stA) ∧
       resp.error = none ∧
       stA.resourcesListCalls = st.resourcesListCalls + 1 ∧
       processRequest stA "resources/list" (some q) id' ctx rd = (.ok resp, stA)) ∧
    (∀ (stB : ServerState) (m : String) (ps : Option Json) (idx : JsonId)
        (ctxB : SecurityContext) (rid : String),
       (processRequest stB m ps idx ctxB rid).2.cache = stB.cache ∨
       ∃ resp, (processRequest stB m ps idx ctxB rid).1 = .ok resp ∧
         resp.error = none) := by
  refine ⟨?_, ?_, ?_, fun stB m ps idx ctxB rid => processRequest_stores_only_ok ..⟩
  · intro m
    constructor
    · intro h
      have hmem : m ∈ ["tools/list", "resources/list"] := List.elem_iff.mp h
      simpa using hmem
    · rintro (rfl | rfl) <;> rfl
  · refine ⟨toolsListResponse st ctx id, _,
      processRequest_toolsList_miss st p id ctx ra hmiss, rfl, rfl, ?_⟩
    exact processRequest_cache_hit _ _ _ _ _ _ _ _ isCacheable_toolsList
      (generateCacheKey_some _ _) (cacheGet_cacheSet_self ..)
  · refine ⟨resourcesListResponse st id', _,
      processRequest_resourcesList_miss st q id' ctx rc hmiss', rfl, rfl, ?_⟩
    exact processRequest_cache_hit _ _ _ _ _ _ _ _ isCacheable_resourcesList
      (generateCacheKey_some _ _) (cacheGet_cacheSet_self ..)

/-- **C6 witness.**  `tools/list` with `params = {}` issued twice against
`st1` (empty cache). -/
theorem claim_C6_cacheable_methods_witness :
    cacheGet st1.cache (keyFor "tools/list" (Json.obj [])) = none ∧
    cacheGet st1.cache (keyFor "resources/list" (Json.obj [])) = none ∧
    (∃ resp stA,
       processRequest st1 "tools/list" (some (Json.obj [])) (JsonId.num 1) ctx0 "w6a"
         = (.ok resp, stA) ∧
       resp.error = none ∧
       stA.toolsListCalls = st1.toolsListCalls + 1 ∧
       processRequest stA "tools/list" (some (Json.obj [])) (JsonId.num 1) ctx0 "w6b"
         = (.ok resp, stA)) :=
  ⟨rfl, rfl,
   (claim_C6_cacheable_methods st1 ctx0 (Json.obj []) (Json.obj [])
     (JsonId.num 1) (JsonId.num 2) "w6a" "w6b" "w6c" "w6d" rfl rfl).2.1⟩

/-- **C10.** On a cache hit for a cacheable method the stored response is
returned exactly as cached — including the JSON-RPC id under which it was
first stored — so a later identical request carrying a different id
receives a response bearing the earlier request's id, not its own. -/
theorem claim_C10_cache_hit_id :
    (∀ (st : ServerState) (ctx : SecurityContext) (m : String) (ps : Option Json)
        (id : JsonId) (rid key : String) (resp : JsonRpcResponse),
        isCacheableMethod m = true → generateCacheKey m ps = .ok key →
        cacheGet st.cache key = some resp →
        processRequest st m ps id ctx rid = (.ok resp, st)) ∧
    (∀ (st : ServerState) (ctx : SecurityContext) (p : Json) (id1 id2 : JsonId)
        (ra rb : String),
        cacheGet st.cache (keyFor "tools/list" p) = none →
        ∃ resp stA,
          processRequest st "tools/list" (some p) id1 ctx ra = (.ok resp, stA) ∧
          resp.id = id1 ∧
          processRequest stA "tools/list" (some p) id2 ctx rb = (.ok resp, stA) ∧
          (id1 ≠ id2 → resp.id ≠ id2)) := by
  constructor
  · intro st ctx m ps id rid key resp hc hkey hhit
    exact processRequest_cache_hit st m ps id ctx rid key resp hc hkey hhit
  · intro st ctx p id1 id2 ra rb hmiss
    refine ⟨toolsListResponse st ctx id1, _,
      processRequest_toolsList_miss st p id1 ctx ra hmiss, rfl, ?_, ?_⟩
    · exact processRequest_cache_hit _ _ _ _ _ _ _ _ isCacheable_toolsList
        (generateCacheKey_some _ _) (cacheGet_cacheSet_self ..)
    · intro hne
      exact hne

/-- **C10 witness.**  Two identical `tools/list` requests with ids 1 and 2
against the empty cache of `st1`: the second answer carries id 1. -/
theorem claim_C10_cache_hit_id_witness :
    cacheGet st1.cache (keyFor "tools/list" (Json.obj [])) = none ∧
    (∃ resp stA,
       processRequest st1 "tools/list" (some (Json.obj [])) (JsonId.num 1) ctx0 "w10a"
         = (.ok resp, stA) ∧
       resp.id = JsonId.num 1 ∧
       processRequest stA "tools/list" (some (Json.obj [])) (JsonId.num 2) ctx0 "w10b"
         = (.ok resp, stA) ∧
       (JsonId.num 1 ≠ JsonId.num 2 → resp.id ≠ JsonId.num 2)) :=
  ⟨rfl, claim_C10_cache_hit_id.2 st1 ctx0 (Json.obj [])
    (JsonId.num 1) (JsonId.num 2) "w10a" "w10b" rfl⟩

/-- **C8 witness.**  The gate applied to `retryTool` (no auth, no required
permissions) under `ctx0` permits execution. -/
theorem claim_C8_permission_gate_witness :
    canExecuteTool ctx0 retryTool = true :=
  (claim_C8_permission_gate ctx0 retryTool).mpr
    ⟨fun h => absurd h (by simp [retryTool]), by simp [retryTool]⟩

end FileBridge
